import Mathlib

/-!
Verification of the session-scoped process bridge of `erpnext_mcp_server`.

The definitions below are a shallow embedding of the Python sources:

* `src/erpnext_mcp_server/api/vue_terminal.py` (session map `active_processes`,
  `start_mcp_session`, `stdout_worker`, `execute_mcp_command`,
  `end_mcp_session`, `cleanup_session`, `cleanup_inactive_sessions`);
* `src/erpnext_mcp_server/api/vue2_terminal.py` (session map `MCP_SESSIONS`,
  `MCPSession`, `start_mcp_session`, `end_mcp_session`, `get_active_sessions`);
* `src/erpnext_mcp_server/handlers/socket_handlers.py` (user-keyed map
  `mcp_processes`, `start_mcp_process_api`, `send_terminal_input`,
  `read_mcp_output`);
* `src/erpnext_mcp_server/handlers/mcp_terminal_socketio.py`
  (`MCPTerminalNamespace.read_output`, `cleanup_terminal`);
* `src/erpnext_mcp_server/api/websocket.py` (`handle_terminal_websocket`,
  authentication phase).

Python dictionaries are modelled as association lists with string keys
(`del` removes the key, assignment overwrites it); OS child processes are
modelled by `Proc`, which records whether the process has exited and whether
it ignores SIGTERM; wall-clock timestamps are natural numbers (seconds).
-/

namespace ErpNextMcp

/-- Model of a child OS process as the bridge observes it: `exited` is what
`Popen.poll()` reports (`poll() is not None`), and `ignoresTerminate` says
whether the process ignores SIGTERM (the hostile case the teardown
escalation must handle). -/
structure Proc where
  ignoresTerminate : Bool
  exited : Bool
  deriving DecidableEq, Repr

/-- `poll() is None` — the process is still alive (non-blocking check). -/
def Proc.isAlive (p : Proc) : Bool :=
  !p.exited

/-- `process.terminate()` — SIGTERM: kills the process unless it ignores
the signal (an already-exited process stays exited). -/
def Proc.terminate (p : Proc) : Proc :=
  if p.ignoresTerminate then p else { p with exited := true }

/-- `process.kill()` / SIGKILL: unconditionally ends the process. -/
def Proc.kill (p : Proc) : Proc :=
  { p with exited := true }

/-! ### Association-list model of the Python global dicts -/

/-- Python `d[k]` / `k in d`: first binding for `k`, if any. -/
def dictLookup (k : String) : List (String × α) → Option α
  | [] => none
  | e :: es => if e.1 = k then some e.2 else dictLookup k es

/-- Python `del d[k]`: remove the binding for `k`. -/
def dictErase (k : String) : List (String × α) → List (String × α)
  | [] => []
  | e :: es => if e.1 = k then dictErase k es else e :: dictErase k es

/-- Python `d[k] = v`: overwrite the binding for `k`. -/
def dictInsert (k : String) (v : α) (m : List (String × α)) : List (String × α) :=
  dictErase k m ++ [(k, v)]

/-! ### Teardown escalation (vue_terminal.cleanup_session lines 287-295,
mcp_terminal_socketio.cleanup_terminal lines 198-207) -/

/-- `process.wait(timeout=5)` in `cleanup_session` (the grace period before
the Kill escalation). -/
def cleanup_session_wait_timeout : Nat := 5

/-- `process.wait(timeout=1)` in `cleanup_terminal`. -/
def cleanup_terminal_wait_timeout : Nat := 1

/-- The process part of `vue_terminal.cleanup_session`:
`process.terminate(); process.wait(timeout=5)`, and on `TimeoutExpired`
(the process is still alive after the grace period) `process.kill()`. -/
def teardown_process (p : Proc) : Proc :=
  let p1 := Proc.terminate p
  if p1.isAlive then Proc.kill p1 else p1

/-- The process part of `MCPTerminalNamespace.cleanup_terminal`: only if the
process is still alive, `killpg(..., SIGTERM); wait(timeout=1)`, and on
`ProcessLookupError`/`TimeoutExpired` escalate to `killpg(..., SIGKILL)`. -/
def cleanup_terminal_process (p : Proc) : Proc :=
  if p.isAlive then
    let p1 := Proc.terminate p
    if p1.isAlive then Proc.kill p1 else p1
  else p

/-! ### vue_terminal.py: the `active_processes` registry -/

/-- A line-framed JSON-RPC message as the bridge sees it: its correlation
`id` and whether it carries an `"error"` member. -/
structure Msg where
  id : String
  isError : Bool
  deriving DecidableEq, Repr

/-- One value of `active_processes[session_id]` in `vue_terminal.py`:
the process handle, the owning user, the two timestamps, and the two
communication queues shared with the worker threads. -/
structure SessionInfo where
  process : Proc
  user : String
  started : Nat
  last_used : Nat
  request_queue : List Msg
  response_queue : List Msg
  deriving DecidableEq, Repr

/-- `vue_terminal.cleanup_session`: if the session is present, signal the
workers, run the Terminate/Kill escalation on its process, and delete the
registry entry; otherwise do nothing.  The second component is the final
state of the session's process (so liveness after teardown is observable
even though the entry is gone from the map). -/
def cleanup_session_result (sid : String) (m : List (String × SessionInfo)) :
    List (String × SessionInfo) × Option Proc :=
  match dictLookup sid m with
  | none => (m, none)
  | some info => (dictErase sid m, some (teardown_process info.process))

/-- The registry state after `vue_terminal.cleanup_session`. -/
def cleanup_session (sid : String) (m : List (String × SessionInfo)) :
    List (String × SessionInfo) :=
  (cleanup_session_result sid m).1

/-- `vue_terminal.start_mcp_session`: spawns the MCP process, stores the
session under a fresh id (no authorization check and no per-owner quota is
consulted), sends the `initialize` request and reports whether the
handshake response arrived in time; on handshake failure the entry is NOT
removed.  `initOk` stands for the handshake outcome. -/
def vue_start_mcp_session (user newSid : String) (newP : Proc) (initOk : Bool)
    (now : Nat) (m : List (String × SessionInfo)) :
    List (String × SessionInfo) × Bool :=
  (dictInsert newSid ⟨newP, user, now, now, [], []⟩ m, initOk)

/-- `vue_terminal.stdout_worker`, one pass over the lines the process wrote
to stdout before EOF.  `parse` is `json.loads`: `none` models a
`JSONDecodeError`.  First component: the messages put on `response_queue`,
in order.  Second component: diagnostics emitted for lines that were
dropped — the `JSONDecodeError` branch is a bare `continue`, so no
diagnostic is ever produced for a malformed line. -/
def stdout_worker (parse : String → Option Msg) :
    List String → List Msg × List String
  | [] => ([], [])
  | line :: rest =>
    match parse line with
    | some r =>
      let o := stdout_worker parse rest
      (r :: o.1, o.2)
    | none => stdout_worker parse rest

/-- A realtime event published via `frappe.publish_realtime`. -/
structure RtEvent where
  event : String
  target : String
  deriving DecidableEq, Repr

/-- Everything `vue_terminal.execute_mcp_command` produces: the new
registry state, the returned `success`/`error` fields, the raw response it
consumed from `response_queue` (if any), and the realtime events it
published. -/
structure ExecOutcome where
  state : List (String × SessionInfo)
  success : Bool
  error : Option String
  returned : Option Msg
  events : List RtEvent
  deriving DecidableEq, Repr

/-- `vue_terminal.execute_mcp_command`: look the session up by id (the
requesting user is never compared against the stored owner), clean up and
fail if the process has exited, otherwise update `last_used`, enqueue the
request and take the NEXT response off `response_queue` — whatever its
correlation id.  An empty queue models the 30s `queue.Empty` timeout. -/
def execute_mcp_command (requester sid request_id : String) (now : Nat)
    (m : List (String × SessionInfo)) : ExecOutcome :=
  match dictLookup sid m with
  | none => ⟨m, false, some "Session not found", none, []⟩
  | some info =>
    if info.process.exited then
      ⟨cleanup_session sid m, false, some "Session terminated", none, []⟩
    else
      let info1 := { info with
        last_used := now
        request_queue := info.request_queue ++ [(⟨request_id, false⟩ : Msg)] }
      match info1.response_queue with
      | [] => ⟨dictInsert sid info1 m, false, some "Command timed out", none, []⟩
      | r :: rest =>
        let info2 := { info1 with response_queue := rest }
        if r.isError then
          ⟨dictInsert sid info2 m, false, some "Unknown error", some r,
            [⟨"mcp_command_result", requester⟩]⟩
        else
          ⟨dictInsert sid info2 m, true, none, some r,
            [⟨"mcp_command_result", requester⟩]⟩

/-- `vue_terminal.cleanup_inactive_sessions` (the reaper sweep): collect
every session whose process is dead or whose `last_used` is more than 3600
seconds in the past, then run `cleanup_session` on each collected id. -/
def cleanup_inactive_sessions (now : Nat) (m : List (String × SessionInfo)) :
    List (String × SessionInfo) :=
  let inactive :=
    (m.filter fun e => e.2.process.exited || decide (now - e.2.last_used > 3600)).map
      Prod.fst
  inactive.foldl (fun acc sid => cleanup_session sid acc) m

/-! ### vue2_terminal.py: the `MCP_SESSIONS` registry -/

/-- `vue2_terminal.MCPSession`: per-session record (no process handle —
this variant executes commands in-process). -/
structure MCPSession where
  user : String
  created_at : Nat
  last_activity : Nat
  is_active : Bool
  command_history : List (String × Nat)
  deriving DecidableEq, Repr

/-- `MCPSession.update_activity`. -/
def MCPSession.update_activity (s : MCPSession) (now : Nat) : MCPSession :=
  { s with last_activity := now }

/-- `MCPSession.add_to_history`: append, then keep only the last 100
entries. -/
def MCPSession.add_to_history (s : MCPSession) (command : String) (now : Nat) :
    MCPSession :=
  let h := s.command_history ++ [(command, now)]
  { s with command_history := if h.length > 100 then h.drop (h.length - 100) else h }

/-- Result record of `vue2_terminal.start_mcp_session`. -/
structure Vue2StartResult where
  success : Bool
  session_id : Option String
  error : Option String
  deriving DecidableEq, Repr

/-- `vue2_terminal.start_mcp_session`: permission check, non-empty-user
check, then unconditionally register a fresh `MCPSession` — the number of
sessions the owner already holds is never consulted, and no
quota-exceeded error exists in the module. -/
def vue2_start_mcp_session (hasPermission : Bool) (user newSid : String)
    (now : Nat) (m : List (String × MCPSession)) :
    List (String × MCPSession) × Vue2StartResult :=
  if !hasPermission then
    (m, ⟨false, none, some "You don't have permission to use MCP Terminal"⟩)
  else if user = "" then
    (m, ⟨false, none, some "User is not logged in or session is invalid"⟩)
  else
    (dictInsert newSid ⟨user, now, now, true, []⟩ m, ⟨true, some newSid, none⟩)

/-- `vue2_terminal.end_mcp_session`: if the session is present, mark it
inactive and delete it; in every case report success. -/
def vue2_end_mcp_session (sid : String) (m : List (String × MCPSession)) :
    List (String × MCPSession) × Bool :=
  match dictLookup sid m with
  | none => (m, true)
  | some _ => (dictErase sid m, true)

/-- Number of sessions in the registry owned by `user` — the observation
a per-owner quota would have to consult. -/
def sessions_owned_by (user : String) (m : List (String × MCPSession)) : Nat :=
  (m.filter fun e => decide (e.2.user = user)).length

/-- One row of the list returned by `vue2_terminal.get_active_sessions`. -/
structure ActiveRow where
  session_id : String
  user : String
  created_at : Nat
  last_activity : Nat
  command_count : Nat
  deriving DecidableEq, Repr

/-- The row `get_active_sessions` builds for one registry entry. -/
def active_row (e : String × MCPSession) : ActiveRow :=
  ⟨e.1, e.2.user, e.2.created_at, e.2.last_activity, e.2.command_history.length⟩

/-- First loop of `get_active_sessions`: sessions idle for more than 3600
seconds get `is_active = False` (and are skipped); the rest keep their
record unchanged. -/
def mark_stale (now : Nat) (m : List (String × MCPSession)) :
    List (String × MCPSession) :=
  m.map fun e =>
    if now - e.2.last_activity > 3600 then (e.1, { e.2 with is_active := false }) else e

/-- `vue2_terminal.get_active_sessions`: behind a permission check, list
the sessions that are within the idle threshold and still active, and —
as a side effect on the registry — delete every session marked inactive.
`none` as second component models the `PermissionError` return. -/
def get_active_sessions (hasPermission : Bool) (now : Nat)
    (m : List (String × MCPSession)) :
    List (String × MCPSession) × Option (List ActiveRow) :=
  if !hasPermission then (m, none)
  else
    let rows := m.filterMap fun e =>
      if now - e.2.last_activity > 3600 then none
      else if e.2.is_active then some (active_row e)
      else none
    let m1 := (mark_stale now m).filter fun e => e.2.is_active
    (m1, some rows)

/-! ### socket_handlers.py: the user-keyed `mcp_processes` map -/

/-- One value of `mcp_processes[user]`: the process handle (set to `None`
once the process is found dead) and the reader-shutdown flag. -/
structure ProcEntry where
  process : Option Proc
  stop_thread : Bool
  deriving DecidableEq, Repr

/-- Outcome of `socket_handlers.start_mcp_process_api`: the new map, the
state of the previously registered process after the terminate/wait
attempt (it is dropped from the map), and the reported success. -/
structure ApiStartOutcome where
  state : List (String × ProcEntry)
  oldProcess : Option Proc
  success : Bool
  deriving DecidableEq, Repr

/-- `socket_handlers.start_mcp_process_api`: if a process is already
registered for `user`, call `terminate()` and `wait(timeout=2)` on it
(exceptions, including `TimeoutExpired`, are swallowed); then overwrite
`mcp_processes[user]` with the new process and report failure only if the
new process exited immediately. -/
def start_mcp_process_api (user : String) (newP : Proc)
    (m : List (String × ProcEntry)) : ApiStartOutcome :=
  let old : Option Proc :=
    match dictLookup user m with
    | some e => e.process
    | none => none
  let oldAfter := old.map Proc.terminate
  ⟨dictInsert user ⟨some newP, false⟩ m, oldAfter, !newP.exited⟩

/-- Result record of `socket_handlers.send_terminal_input`. -/
structure InputResult where
  success : Bool
  error : Option String
  deriving DecidableEq, Repr

/-- `socket_handlers.send_terminal_input`: no registered entry or a `None`
process handle fail with "MCP Server not running"; a process whose
`poll()` is not `None` clears the handle and fails with "MCP Server
terminated" without attempting the write; otherwise the line is written to
stdin (`writeOk` models whether that write raised). -/
def send_terminal_input (user command : String) (writeOk : Bool)
    (m : List (String × ProcEntry)) : List (String × ProcEntry) × InputResult :=
  match dictLookup user m with
  | none => (m, ⟨false, some "MCP Server not running"⟩)
  | some e =>
    match e.process with
    | none => (m, ⟨false, some "MCP Server not running"⟩)
    | some p =>
      if p.exited then
        (dictInsert user { e with process := none } m,
          ⟨false, some "MCP Server terminated"⟩)
      else if writeOk then (m, ⟨true, none⟩)
      else (m, ⟨false, some "Failed to send command"⟩)

/-- Reader loop of `socket_handlers.read_mcp_output`:
`for line in iter(process.stdout.readline, b"")`, breaking as soon as the
`stop_thread` flag is observed set, otherwise publishing each line.
`stop i` is the flag's value when iteration `i` checks it; the result is
the list of published lines, in order. -/
def read_mcp_output_loop (stop : Nat → Bool) : List String → Nat → List String
  | [], _ => []
  | line :: rest, i =>
    if stop i then [] else line :: read_mcp_output_loop stop rest (i + 1)

/-- `socket_handlers.read_mcp_output` on the stream of lines the process
writes before EOF. -/
def read_mcp_output (stop : Nat → Bool) (lines : List String) : List String :=
  read_mcp_output_loop stop lines 0

/-- Reader loop of `MCPTerminalNamespace.read_output`: while the terminal
is registered and active, `select` + `os.read` one chunk and emit it to
the client; `active i` is the activity check before read `i`. -/
def read_output_loop (active : Nat → Bool) : List String → Nat → List String
  | [], _ => []
  | chunk :: rest, i =>
    if active i then chunk :: read_output_loop active rest (i + 1) else []

/-- `MCPTerminalNamespace.read_output` on the stream of chunks the PTY
yields before EOF. -/
def read_output (active : Nat → Bool) (chunks : List String) : List String :=
  read_output_loop active chunks 0

/-! ### websocket.py: authentication phase of `handle_terminal_websocket` -/

/-- The fields of an `active_sessions` entry the authentication phase
consults. -/
structure WsSession where
  user : String
  deriving DecidableEq, Repr

/-- Outcome of the authentication phase. -/
inductive WsAuth
  | ok
  | sessionNotFound
  | permissionDenied
  deriving DecidableEq, Repr

/-- `websocket.handle_terminal_websocket`, authentication phase: unknown
session id → "Terminal session not found or expired"; a session whose
stored `user` differs from the requesting identity → permission error;
otherwise proceed. -/
def ws_authenticate (requester sid : String)
    (sessions : List (String × WsSession)) : WsAuth :=
  match dictLookup sid sessions with
  | none => .sessionNotFound
  | some s => if s.user ≠ requester then .permissionDenied else .ok

/-! ### Concrete fixture states used by witnesses and counterexamples -/

/-- A `MCP_SESSIONS` state in which the owner `alice` already holds five
concurrent sessions. -/
def quota_probe_state : List (String × MCPSession) :=
  [("s1", ⟨"alice", 0, 10, true, []⟩),
   ("s2", ⟨"alice", 1, 11, true, []⟩),
   ("s3", ⟨"alice", 2, 12, true, []⟩),
   ("s4", ⟨"alice", 3, 13, true, []⟩),
   ("s5", ⟨"alice", 4, 14, true, []⟩)]

/-- An `active_processes` state holding a live session created by `alice`,
with one response already queued. -/
def foreign_session_state : List (String × SessionInfo) :=
  [("s1", ⟨⟨false, false⟩, "alice", 0, 0, [], [⟨"resp-1", false⟩]⟩)]

/-- A websocket `active_sessions` state with one session owned by `alice`. -/
def ws_sessions_probe : List (String × WsSession) :=
  [("s1", ⟨"alice"⟩)]

/-- An `active_processes` state for the reaper witness: `a` is fresh and
alive, `b` has exited, `c` is alive but idle past the threshold. -/
def reaper_probe_state : List (String × SessionInfo) :=
  [("a", ⟨⟨false, false⟩, "alice", 0, 3000, [], []⟩),
   ("b", ⟨⟨false, true⟩, "alice", 0, 3900, [], []⟩),
   ("c", ⟨⟨false, false⟩, "alice", 0, 100, [], []⟩)]

/-- An `mcp_processes` state whose registered process for `carol` has
already exited. -/
def dead_entry_state : List (String × ProcEntry) :=
  [("carol", ⟨some ⟨false, true⟩, false⟩)]

/-- An `active_processes` state whose session process has already exited. -/
def dead_session_state : List (String × SessionInfo) :=
  [("s2", ⟨⟨false, true⟩, "carol", 0, 0, [], []⟩)]

/-- A concrete stand-in for `json.loads` line parsing: only the literal
line "ok" parses, to a message with correlation id `id-1`. -/
def parse_demo (s : String) : Option Msg :=
  if s = "ok" then some ⟨"id-1", false⟩ else none

/-- An `active_processes` state whose queued response carries a
correlation id unrelated to any request id. -/
def mismatch_state : List (String × SessionInfo) :=
  [("s1", ⟨⟨false, false⟩, "alice", 0, 0, [], [⟨"some-other-id", false⟩]⟩)]

/-- A `MCP_SESSIONS` state for the listing witness: `f` is fresh, `g` is
idle past the threshold. -/
def listing_probe_state : List (String × MCPSession) :=
  [("f", ⟨"alice", 0, 3000, true, [("ls", 5)]⟩),
   ("g", ⟨"alice", 0, 100, true, []⟩)]

/-! ### Association-list lemmas -/

theorem dictErase_eq_filter (k : String) (m : List (String × α)) :
    dictErase k m = m.filter (fun e => decide (e.1 ≠ k)) := by
  induction m with
  | nil => rfl
  | cons e es ih =>
    by_cases h : e.1 = k <;> simp [dictErase, List.filter, h, ih]

theorem dictErase_eq_self_of_lookup_none (k : String) (m : List (String × α))
    (h : dictLookup k m = none) : dictErase k m = m := by
  induction m with
  | nil => rfl
  | cons e es ih =>
    by_cases he : e.1 = k
    · simp [dictLookup, he] at h
    · simp [dictLookup, he] at h
      simp [dictErase, he, ih h]

theorem dictLookup_dictErase_self (k : String) (m : List (String × α)) :
    dictLookup k (dictErase k m) = none := by
  induction m with
  | nil => rfl
  | cons e es ih =>
    by_cases he : e.1 = k <;> simp [dictErase, dictLookup, he, ih]

theorem dictErase_idem (k : String) (m : List (String × α)) :
    dictErase k (dictErase k m) = dictErase k m :=
  dictErase_eq_self_of_lookup_none k _ (dictLookup_dictErase_self k m)

theorem dictLookup_append (k : String) (l₁ l₂ : List (String × α)) :
    dictLookup k (l₁ ++ l₂) =
      (match dictLookup k l₁ with
       | some v => some v
       | none => dictLookup k l₂) := by
  induction l₁ with
  | nil => rfl
  | cons e es ih =>
    by_cases he : e.1 = k <;> simp [dictLookup, he, ih]

theorem dictLookup_dictInsert_self (k : String) (v : α) (m : List (String × α)) :
    dictLookup k (dictInsert k v m) = some v := by
  unfold dictInsert
  rw [dictLookup_append, dictLookup_dictErase_self]
  simp [dictLookup]

/-! ### Helper lemmas about the embedded operations -/

theorem teardown_process_exited (p : Proc) : (teardown_process p).exited = true := by
  cases p with
  | mk ig ex => cases ig <;> cases ex <;> rfl

theorem cleanup_terminal_process_exited (p : Proc) :
    (cleanup_terminal_process p).exited = true := by
  cases p with
  | mk ig ex => cases ig <;> cases ex <;> rfl

theorem cleanup_session_eq_erase (sid : String) (m : List (String × SessionInfo)) :
    cleanup_session sid m = dictErase sid m := by
  unfold cleanup_session cleanup_session_result
  cases h : dictLookup sid m with
  | none => exact (dictErase_eq_self_of_lookup_none sid m h).symm
  | some info => rfl

theorem foldl_cleanup_session_eq_filter (L : List String)
    (m : List (String × SessionInfo)) :
    L.foldl (fun acc sid => cleanup_session sid acc) m =
      m.filter fun e => decide (e.1 ∉ L) := by
  induction L generalizing m with
  | nil => simp
  | cons a L ih =>
    rw [List.foldl_cons, ih (cleanup_session a m), cleanup_session_eq_erase,
      dictErase_eq_filter, List.filter_filter]
    apply List.filter_congr
    intro e _
    by_cases h1 : e.1 = a <;> by_cases h2 : e.1 ∈ L <;> simp [h1, h2]

theorem eq_of_mem_of_nodup_keys {α : Type} {m : List (String × α)}
    (h : (m.map Prod.fst).Nodup) {e₁ e₂ : String × α}
    (h1 : e₁ ∈ m) (h2 : e₂ ∈ m) (hk : e₁.1 = e₂.1) : e₁ = e₂ := by
  induction m with
  | nil => cases h1
  | cons x xs ih =>
    simp only [List.map_cons, List.nodup_cons] at h
    rcases List.mem_cons.mp h1 with rfl | h1' <;>
      rcases List.mem_cons.mp h2 with rfl | h2'
    · rfl
    · exact absurd (hk ▸ List.mem_map_of_mem Prod.fst h2') h.1
    · exact absurd (hk ▸ List.mem_map_of_mem Prod.fst h1') h.1
    · exact ih h.2 h1' h2'

/-! ### Claim theorems -/

/-- C1: teardown (used by both the explicit close path,
`vue_terminal.cleanup_session`, and the socketio disconnect/reader path,
`MCPTerminalNamespace.cleanup_terminal`) first sends Terminate, waits a
bounded grace period (5s resp. 1s), and if the process is still alive
sends Kill, so that no process — even one that ignores Terminate — is
still alive once teardown returns. -/
theorem C1_teardown_escalation :
    (∀ p : Proc, (teardown_process p).isAlive = false) ∧
    (∀ p : Proc, (cleanup_terminal_process p).isAlive = false) ∧
    (∀ p : Proc, teardown_process p =
      (if (Proc.terminate p).isAlive then Proc.kill (Proc.terminate p)
       else Proc.terminate p)) ∧
    (∀ (sid : String) (m : List (String × SessionInfo)),
      ((cleanup_session_result sid m).2.all fun q => q.exited) = true) ∧
    cleanup_session_wait_timeout = 5 ∧ cleanup_terminal_wait_timeout = 1 := by
  refine ⟨?_, ?_, ?_, ?_, rfl, rfl⟩
  · intro p
    simp [Proc.isAlive, teardown_process_exited]
  · intro p
    simp [Proc.isAlive, cleanup_terminal_process_exited]
  · intro p
    rfl
  · intro sid m
    cases h : dictLookup sid m with
    | none => simp [cleanup_session_result, h]
    | some info => simp [cleanup_session_result, h, teardown_process_exited]

/-- C2: destroying an already-destroyed session is a no-op that still
succeeds: `cleanup_session` applied twice equals it applied once, and a
second `vue2_terminal.end_mcp_session` leaves the registry exactly as the
first left it while still reporting success (as every call does). -/
theorem C2_destroy_idempotent :
    (∀ (sid : String) (m : List (String × SessionInfo)),
      cleanup_session sid (cleanup_session sid m) = cleanup_session sid m) ∧
    (∀ (sid : String) (m : List (String × MCPSession)),
      vue2_end_mcp_session sid (vue2_end_mcp_session sid m).1 =
        ((vue2_end_mcp_session sid m).1, true)) ∧
    (∀ (sid : String) (m : List (String × MCPSession)),
      (vue2_end_mcp_session sid m).2 = true) := by
  refine ⟨?_, ?_, ?_⟩
  · intro sid m
    rw [cleanup_session_eq_erase, cleanup_session_eq_erase, dictErase_idem]
  · intro sid m
    cases h : dictLookup sid m with
    | none => simp [vue2_end_mcp_session, h]
    | some s =>
      simp only [vue2_end_mcp_session, h]
      rw [dictLookup_dictErase_self]
  · intro sid m
    cases h : dictLookup sid m <;> simp [vue2_end_mcp_session, h]

/-- C6: each per-session reader emits process output in exactly the order
it was read: uninterrupted, `read_mcp_output` (stdio lines) and
`read_output` (PTY chunks) emit the full stream unchanged, and under any
stop/disconnect pattern what is emitted is precisely the initial segment
of the stream that was read — never a reordering. -/
theorem C6_output_order_preserved :
    (∀ lines : List String, read_mcp_output (fun _ => false) lines = lines) ∧
    (∀ (stop : Nat → Bool) (lines : List String),
      ∃ n, read_mcp_output stop lines = lines.take n) ∧
    (∀ chunks : List String, read_output (fun _ => true) chunks = chunks) ∧
    (∀ (active : Nat → Bool) (chunks : List String),
      ∃ n, read_output active chunks = chunks.take n) := by
  have h1 : ∀ (lines : List String) (i : Nat),
      read_mcp_output_loop (fun _ => false) lines i = lines := by
    intro lines
    induction lines with
    | nil => intro i; rfl
    | cons l rest ih => intro i; simp [read_mcp_output_loop, ih]
  have h2 : ∀ (stop : Nat → Bool) (lines : List String) (i : Nat),
      ∃ n, read_mcp_output_loop stop lines i = lines.take n := by
    intro stop lines
    induction lines with
    | nil => intro i; exact ⟨0, rfl⟩
    | cons l rest ih =>
      intro i
      by_cases hs : stop i
      · exact ⟨0, by simp [read_mcp_output_loop, hs]⟩
      · obtain ⟨n, hn⟩ := ih (i + 1)
        exact ⟨n + 1, by simp [read_mcp_output_loop, hs, hn]⟩
  have h3 : ∀ (chunks : List String) (i : Nat),
      read_output_loop (fun _ => true) chunks i = chunks := by
    intro chunks
    induction chunks with
    | nil => intro i; rfl
    | cons c rest ih => intro i; simp [read_output_loop, ih]
  have h4 : ∀ (active : Nat → Bool) (chunks : List String) (i : Nat),
      ∃ n, read_output_loop active chunks i = chunks.take n := by
    intro active chunks
    induction chunks with
    | nil => intro i; exact ⟨0, rfl⟩
    | cons c rest ih =>
      intro i
      by_cases ha : active i
      · obtain ⟨n, hn⟩ := ih (i + 1)
        exact ⟨n + 1, by simp [read_output_loop, ha, hn]⟩
      · exact ⟨0, by simp [read_output_loop, ha]⟩
  exact ⟨fun lines => h1 lines 0, fun stop lines => h2 stop lines 0,
    fun chunks => h3 chunks 0, fun active chunks => h4 active chunks 0⟩

/-- C9: the `mcp_processes` map of `socket_handlers.py` holds exactly one
entry per user after `start_mcp_process_api`, which first signals
Terminate to (and waits on) any process previously registered for that
user before overwriting the entry, so the previously registered process is
either dead or one that ignores Terminate — and in either case it is no
longer registered, leaving at most one registered process per user. -/
theorem C9_one_registered_process_per_user :
    ∀ (user : String) (newP : Proc) (m : List (String × ProcEntry)),
      ((start_mcp_process_api user newP m).state.filter
        (fun e => decide (e.1 = user))).length = 1 ∧
      dictLookup user (start_mcp_process_api user newP m).state =
        some ⟨some newP, false⟩ ∧
      ((start_mcp_process_api user newP m).oldProcess =
        ((dictLookup user m).bind ProcEntry.process).map Proc.terminate) ∧
      ((start_mcp_process_api user newP m).oldProcess.all
        fun q => q.ignoresTerminate || q.exited) = true := by
  intro user newP m
  have herase : ∀ mm : List (String × ProcEntry),
      ((dictErase user mm).filter fun e => decide (e.1 = user)) = [] := by
    intro mm
    induction mm with
    | nil => rfl
    | cons e es ih =>
      by_cases he : e.1 = user <;> simp [dictErase, he, ih]
  refine ⟨?_, ?_, ?_, ?_⟩
  · show ((dictInsert user ⟨some newP, false⟩ m).filter
      (fun e => decide (e.1 = user))).length = 1
    unfold dictInsert
    rw [List.filter_append, herase]
    simp
  · exact dictLookup_dictInsert_self user ⟨some newP, false⟩ m
  · cases h : dictLookup user m with
    | none => simp [start_mcp_process_api, h]
    | some e => simp [start_mcp_process_api, h]
  · cases h : dictLookup user m with
    | none => simp [start_mcp_process_api, h]
    | some e =>
      cases hp : e.process with
      | none => simp [start_mcp_process_api, h, hp]
      | some p =>
        cases hi : p.ignoresTerminate <;>
          simp [start_mcp_process_api, h, hp, Proc.terminate, hi]

/-- C5: the reaper sweep `cleanup_inactive_sessions` tears a session down
if and only if its process is no longer alive or `now - last_used`
exceeds the 3600-second idle threshold: the registry after the sweep is
exactly the original registry restricted to sessions that are alive and
within the threshold. -/
theorem C5_reaper_tears_down_iff_dead_or_idle (now : Nat)
    (m : List (String × SessionInfo)) (h : (m.map Prod.fst).Nodup) :
    cleanup_inactive_sessions now m =
      m.filter fun e =>
        !(e.2.process.exited || decide (now - e.2.last_used > 3600)) := by
  unfold cleanup_inactive_sessions
  rw [foldl_cleanup_session_eq_filter]
  apply List.filter_congr
  intro e he
  by_cases hc : (e.2.process.exited || decide (now - e.2.last_used > 3600)) = true
  · have hmem : e.1 ∈ (m.filter fun x =>
        x.2.process.exited || decide (now - x.2.last_used > 3600)).map Prod.fst :=
      List.mem_map_of_mem Prod.fst (List.mem_filter.mpr ⟨he, hc⟩)
    simp [hmem, hc]
  · have hnot : e.1 ∉ (m.filter fun x =>
        x.2.process.exited || decide (now - x.2.last_used > 3600)).map Prod.fst := by
      intro hmem
      obtain ⟨e', he', hk⟩ := List.mem_map.mp hmem
      obtain ⟨he'm, he'c⟩ := List.mem_filter.mp he'
      have heq : e' = e := eq_of_mem_of_nodup_keys h he'm he hk
      exact hc (heq ▸ he'c)
    simp [hnot, hc]

/-- Witness for C5 at a concrete registry: a fresh live session survives
the sweep, an exited one and an idle one are torn down. -/
theorem C5_witness :
    ((reaper_probe_state.map Prod.fst).Nodup) ∧
    cleanup_inactive_sessions 4000 reaper_probe_state =
      reaper_probe_state.filter (fun e =>
        !(e.2.process.exited || decide (4000 - e.2.last_used > 3600))) :=
  ⟨by decide, C5_reaper_tears_down_iff_dead_or_idle 4000 reaper_probe_state (by decide)⟩

/-- C10: `vue2_terminal.get_active_sessions` is not read-only — on any
registry of active sessions it deletes every session idle for more than
3600 seconds and omits it from the returned list, while every session
within the threshold is listed and its registry record left unchanged. -/
theorem C10_listing_reaps_stale_sessions (now : Nat)
    (m : List (String × MCPSession)) (h : ∀ e ∈ m, e.2.is_active = true) :
    get_active_sessions true now m =
      (m.filter (fun e => !decide (now - e.2.last_activity > 3600)),
       some ((m.filter (fun e => !decide (now - e.2.last_activity > 3600))).map
         active_row)) := by
  have hrows : ∀ (mm : List (String × MCPSession)),
      (∀ e ∈ mm, e.2.is_active = true) →
      (mm.filterMap fun e =>
        if now - e.2.last_activity > 3600 then none
        else if e.2.is_active then some (active_row e) else none) =
      (mm.filter fun e => !decide (now - e.2.last_activity > 3600)).map active_row := by
    intro mm hmm
    induction mm with
    | nil => rfl
    | cons e es ih =>
      have he := hmm e (List.mem_cons_self e es)
      have hes : ∀ x ∈ es, x.2.is_active = true :=
        fun x hx => hmm x (List.mem_cons_of_mem e hx)
      by_cases hs : now - e.2.last_activity > 3600 <;>
        simp [List.filterMap_cons, List.filter_cons, hs, he, ih hes]
  have hstate : ∀ (mm : List (String × MCPSession)),
      (∀ e ∈ mm, e.2.is_active = true) →
      ((mark_stale now mm).filter fun e => e.2.is_active) =
      mm.filter fun e => !decide (now - e.2.last_activity > 3600) := by
    intro mm hmm
    induction mm with
    | nil => rfl
    | cons e es ih =>
      have he := hmm e (List.mem_cons_self e es)
      have hes : ∀ x ∈ es, x.2.is_active = true :=
        fun x hx => hmm x (List.mem_cons_of_mem e hx)
      have ih' := ih hes
      by_cases hs : now - e.2.last_activity > 3600 <;>
        simp only [mark_stale] at ih' ⊢ <;>
        simp [List.filter_cons, hs, he, ih']
  simp [get_active_sessions, hrows m h, hstate m h]

/-- Witness for C10 at a concrete registry: the fresh session is listed
and kept, the stale one is deleted and omitted. -/
theorem C10_witness :
    (∀ e ∈ listing_probe_state, e.2.is_active = true) ∧
    get_active_sessions true 4000 listing_probe_state =
      (listing_probe_state.filter
        (fun e => !decide (4000 - e.2.last_activity > 3600)),
       some ((listing_probe_state.filter
         (fun e => !decide (4000 - e.2.last_activity > 3600))).map active_row)) :=
  ⟨by decide, C10_listing_reaps_stale_sessions 4000 listing_probe_state (by decide)⟩

/-- C3 counterexample: an owner (`alice`) already holding five concurrent
sessions can still create a sixth — both `start_mcp_session` variants
succeed and register a new session/process, so no per-owner concurrency
cap is enforced and no `QuotaExceeded` error exists. -/
theorem C3_counterexample :
    sessions_owned_by "alice" quota_probe_state = 5 ∧
    (vue2_start_mcp_session true "alice" "s6" 20 quota_probe_state).2.success
      = true ∧
    sessions_owned_by "alice"
      (vue2_start_mcp_session true "alice" "s6" 20 quota_probe_state).1 = 6 ∧
    (vue_start_mcp_session "alice" "t6" ⟨false, false⟩ true 20
      foreign_session_state).2 = true ∧
    dictLookup "t6" (vue_start_mcp_session "alice" "t6" ⟨false, false⟩ true 20
      foreign_session_state).1 =
      some ⟨⟨false, false⟩, "alice", 20, 20, [], []⟩ := by
  decide

/-- C3 (amended): session creation enforces no per-owner concurrency cap
and can never fail with a quota error — whenever the permission check
passes and the user is non-empty, `vue2_terminal.start_mcp_session`
unconditionally registers one more session for the owner, and
`vue_terminal.start_mcp_session` unconditionally spawns and registers the
process, whatever the owner's current session count. -/
theorem C3_no_owner_quota (user newSid : String) (now : Nat)
    (m : List (String × MCPSession)) (h : user ≠ "") :
    vue2_start_mcp_session true user newSid now m =
      (dictInsert newSid ⟨user, now, now, true, []⟩ m, ⟨true, some newSid, none⟩) ∧
    ∀ (u sid : String) (p : Proc) (ok : Bool) (t : Nat)
      (mm : List (String × SessionInfo)),
      vue_start_mcp_session u sid p ok t mm =
        (dictInsert sid ⟨p, u, t, t, [], []⟩ mm, ok) := by
  constructor
  · simp [vue2_start_mcp_session, h]
  · intro u sid p ok t mm
    rfl

/-- Witness for C3's amended theorem at `alice` with five live sessions. -/
theorem C3_no_owner_quota_witness :
    ("alice" : String) ≠ "" ∧
    vue2_start_mcp_session true "alice" "s6" 20 quota_probe_state =
      (dictInsert "s6" ⟨"alice", 20, 20, true, []⟩ quota_probe_state,
        ⟨true, some "s6", none⟩) :=
  ⟨by decide, (C3_no_owner_quota "alice" "s6" 20 quota_probe_state (by decide)).1⟩

/-- C4 counterexample: `execute_mcp_command` performs the operation for a
requester (`bob`) who is not the session's owner (`alice`): the lookup
does not fail closed, the command succeeds, and the session record is
touched (its `last_used` moves to the request time and the request is
queued) on behalf of the foreign identity. -/
theorem C4_counterexample :
    (dictLookup "s1" foreign_session_state).map SessionInfo.user
      = some "alice" ∧
    (execute_mcp_command "bob" "s1" "r1" 50 foreign_session_state).success
      = true ∧
    (execute_mcp_command "bob" "s1" "r1" 50 foreign_session_state).error
      = none ∧
    (dictLookup "s1"
      (execute_mcp_command "bob" "s1" "r1" 50 foreign_session_state).state).map
        SessionInfo.last_used = some 50 := by
  decide

/-- C4 (amended): only the websocket transport fails closed — its
authentication phase rejects an unknown session id and any requester other
than the stored owner — while `vue_terminal.execute_mcp_command` performs
no ownership check at all: its observable effect on the registry and its
returned result are identical for every requesting identity that knows
the session id. -/
theorem C4_ws_closed_execute_unchecked :
    (∀ (requester sid : String) (S : List (String × WsSession)),
      dictLookup sid S = none →
        ws_authenticate requester sid S = WsAuth.sessionNotFound) ∧
    (∀ (requester sid : String) (S : List (String × WsSession)) (s : WsSession),
      dictLookup sid S = some s → s.user ≠ requester →
        ws_authenticate requester sid S = WsAuth.permissionDenied) ∧
    (∀ (r₁ r₂ sid rid : String) (now : Nat) (m : List (String × SessionInfo)),
      (execute_mcp_command r₁ sid rid now m).state =
        (execute_mcp_command r₂ sid rid now m).state ∧
      (execute_mcp_command r₁ sid rid now m).success =
        (execute_mcp_command r₂ sid rid now m).success ∧
      (execute_mcp_command r₁ sid rid now m).error =
        (execute_mcp_command r₂ sid rid now m).error ∧
      (execute_mcp_command r₁ sid rid now m).returned =
        (execute_mcp_command r₂ sid rid now m).returned) := by
  refine ⟨?_, ?_, ?_⟩
  · intro requester sid S hnone
    simp [ws_authenticate, hnone]
  · intro requester sid S s hs hu
    simp [ws_authenticate, hs, hu]
  · intro r₁ r₂ sid rid now m
    unfold execute_mcp_command
    cases h : dictLookup sid m with
    | none => exact ⟨rfl, rfl, rfl, rfl⟩
    | some info =>
      by_cases hd : info.process.exited = true
      · simp [hd]
      · simp only [Bool.not_eq_true] at hd
        simp only [hd]
        cases hq : info.response_queue with
        | nil => exact ⟨rfl, rfl, rfl, rfl⟩
        | cons r rest =>
          by_cases he : r.isError = true <;> simp [he]

/-- Witness for C4's amended theorem: the websocket phase rejects an
unknown session and a non-owner requester on a concrete registry. -/
theorem C4_ws_closed_witness :
    ws_authenticate "bob" "zz" ws_sessions_probe = WsAuth.sessionNotFound ∧
    ws_authenticate "bob" "s1" ws_sessions_probe = WsAuth.permissionDenied :=
  ⟨C4_ws_closed_execute_unchecked.1 "bob" "zz" ws_sessions_probe (by decide),
   C4_ws_closed_execute_unchecked.2.1 "bob" "s1" ws_sessions_probe ⟨"alice"⟩
     (by decide) (by decide)⟩

/-- C7: writing input to a session whose process has already exited fails
fast with an error rather than attempting (and blocking on) the write:
`send_terminal_input` clears the dead handle and reports "MCP Server
terminated", and `execute_mcp_command` runs the idempotent
`cleanup_session` teardown and reports "Session terminated". -/
theorem C7_write_after_exit_errors (user cmd : String) (wOk : Bool)
    (m : List (String × ProcEntry)) (e : ProcEntry) (p : Proc)
    (h1 : dictLookup user m = some e) (h2 : e.process = some p)
    (h3 : p.exited = true) :
    send_terminal_input user cmd wOk m =
      (dictInsert user { e with process := none } m,
        ⟨false, some "MCP Server terminated"⟩) ∧
    ∀ (requester sid rid : String) (now : Nat)
      (mm : List (String × SessionInfo)) (info : SessionInfo),
      dictLookup sid mm = some info → info.process.exited = true →
      execute_mcp_command requester sid rid now mm =
        ⟨cleanup_session sid mm, false, some "Session terminated", none, []⟩ := by
  constructor
  · simp [send_terminal_input, h1, h2, h3]
  · intro requester sid rid now mm info hlook hdead
    simp [execute_mcp_command, hlook, hdead]

/-- Witness for C7 at concrete states whose process has exited. -/
theorem C7_witness :
    dictLookup "carol" dead_entry_state = some ⟨some ⟨false, true⟩, false⟩ ∧
    send_terminal_input "carol" "ls" true dead_entry_state =
      (dictInsert "carol" ⟨none, false⟩ dead_entry_state,
        ⟨false, some "MCP Server terminated"⟩) ∧
    execute_mcp_command "carol" "s2" "r9" 7 dead_session_state =
      ⟨cleanup_session "s2" dead_session_state, false,
        some "Session terminated", none, []⟩ :=
  ⟨by decide,
   (C7_write_after_exit_errors "carol" "ls" true dead_entry_state
     ⟨some ⟨false, true⟩, false⟩ ⟨false, true⟩ (by decide) (by decide)
     (by decide)).1,
   (C7_write_after_exit_errors "carol" "ls" true dead_entry_state
     ⟨some ⟨false, true⟩, false⟩ ⟨false, true⟩ (by decide) (by decide)
     (by decide)).2 "carol" "s2" "r9" 7 dead_session_state
     ⟨⟨false, true⟩, "carol", 0, 0, [], []⟩ (by decide) (by decide)⟩

/-- C8 counterexample: the bridge does not implement the claimed framing —
a malformed stdout line is dropped with no diagnostic (`stdout_worker`
emits nothing for it), and `execute_mcp_command` hands the caller the next
queued response even though its correlation id does not match the request
id it just issued. -/
theorem C8_counterexample :
    stdout_worker parse_demo ["not json"] = ([], []) ∧
    (execute_mcp_command "alice" "s1" "req-42" 50 mismatch_state).returned =
      some ⟨"some-other-id", false⟩ ∧
    ("req-42" : String) ≠ "some-other-id" := by
  decide

/-- C8 (amended): `stdout_worker` parses each stdout line as JSON and
enqueues the parsed messages, in order, on a single shared response queue;
malformed lines are skipped silently (no diagnostic is ever produced),
and no correlation-id matching exists: the response
`execute_mcp_command` consumes, and the success it reports, are
independent of the request id it issued. -/
theorem C8_fifo_no_correlation :
    (∀ (parse : String → Option Msg) (lines : List String),
      (stdout_worker parse lines).2 = [] ∧
      (stdout_worker parse lines).1 = lines.filterMap parse) ∧
    (∀ (requester sid rid₁ rid₂ : String) (now : Nat)
      (m : List (String × SessionInfo)),
      (execute_mcp_command requester sid rid₁ now m).returned =
        (execute_mcp_command requester sid rid₂ now m).returned ∧
      (execute_mcp_command requester sid rid₁ now m).success =
        (execute_mcp_command requester sid rid₂ now m).success) := by
  constructor
  · intro parse lines
    induction lines with
    | nil => exact ⟨rfl, rfl⟩
    | cons line rest ih =>
      cases hp : parse line with
      | none => simp [stdout_worker, hp, List.filterMap_cons, ih.1, ih.2]
      | some r => simp [stdout_worker, hp, List.filterMap_cons, ih.1, ih.2]
  · intro requester sid rid₁ rid₂ now m
    unfold execute_mcp_command
    cases h : dictLookup sid m with
    | none => exact ⟨rfl, rfl⟩
    | some info =>
      by_cases hd : info.process.exited = true
      · simp [hd]
      · simp only [Bool.not_eq_true] at hd
        simp only [hd]
        cases hq : info.response_queue with
        | nil => exact ⟨rfl, rfl⟩
        | cons r rest =>
          by_cases he : r.isError = true <;> simp [he]

end ErpNextMcp
